import Mathlib

/-!
Verification of the core business logic of the solo-backend e-learning API:
quiz grading and attempt validation (`src/services/quiz.service.ts`), module
unlock evaluation (`ModuleService`), the enrollment uniqueness constraint
(Prisma schema `UserCourseEnrollment`), and the error-handling middleware
(`src/middlewares/error.middleware.ts`).

JavaScript `number` arithmetic on quiz points (small integers) is modelled
exactly: integer sums as `Int`, and `Math.round((earned / total) * 100)` as
exact rational arithmetic followed by `Math.round`, which for nonnegative
arguments is round-half-up, i.e. `fun x => Int.floor (x + 1/2)`.
-/

namespace SoloBackend

/-! ## Data model (from the Prisma schema and the service types)

`QuizQuestion`: `options` (ordered list), `correctOptionIndex : Int`,
`points : Int` (schema type `Int`; the zod schema `createQuizQuestionSchema`
validates `points` as a positive integer at the data-entry boundary).
-/

structure QuizQuestion where
  id : String
  question : String
  options : List String
  correctOptionIndex : Int
  points : Int
  deriving DecidableEq, Repr

structure Quiz where
  id : String
  passingScore : Int
  questions : List QuizQuestion
  deriving DecidableEq, Repr

/-- One entry of the `answers` array of `POST /quizzes/:id/attempt`. -/
structure AnswerInput where
  questionId : String
  selectedOptionIndex : Int
  deriving DecidableEq, Repr

/-! ## Quiz grading (`QuizService.calculateQuizScore`) -/

/-- JavaScript `Math.round`: round half toward positive infinity. -/
def jsRound (x : ℚ) : Int := ⌊x + 1/2⌋

/-- The per-question check inside the scoring loop of `calculateQuizScore`:
`const answer = answers.find(a => a.questionId === question.id);
 if (answer && answer.selectedOptionIndex === question.correctOptionIndex)`. -/
def codeCorrect (answers : List AnswerInput) (q : QuizQuestion) : Bool :=
  match answers.find? (fun a => a.questionId == q.id) with
  | some a => a.selectedOptionIndex == q.correctOptionIndex
  | none => false

/-- The accumulation loop of `calculateQuizScore`:
`for (const question of quiz.questions) { totalPoints += question.points; ...
 earnedPoints += question.points; }`, returning `(totalPoints, earnedPoints)`. -/
def scorePoints (questions : List QuizQuestion) (answers : List AnswerInput) : Int × Int :=
  questions.foldl
    (fun acc q =>
      (acc.1 + q.points, if codeCorrect answers q then acc.2 + q.points else acc.2))
    (0, 0)

/-- `QuizService.calculateQuizScore`:
`const percentageScore = totalPoints > 0 ? Math.round((earnedPoints / totalPoints) * 100) : 0`. -/
def calculateQuizScore (quiz : Quiz) (answers : List AnswerInput) : Int :=
  let p := scorePoints quiz.questions answers
  if 0 < p.1 then jsRound ((p.2 : ℚ) / (p.1 : ℚ) * 100) else 0

/-! ## Spec-side grading definitions (from spec §4.2, for the refinement claims C1/C6) -/

/-- Spec: a question is correctly answered when some submitted answer is for this
question and selects its correct option. -/
def specCorrect (answers : List AnswerInput) (q : QuizQuestion) : Bool :=
  answers.any (fun a => a.questionId == q.id && a.selectedOptionIndex == q.correctOptionIndex)

/-- Spec: `totalPoints = sum(all question.points)`. -/
def specTotalPoints (questions : List QuizQuestion) : Int :=
  (questions.map (fun q => q.points)).sum

/-- Spec: `earnedPoints = sum(question.points for each correctly-answered question)`. -/
def specEarnedPoints (questions : List QuizQuestion) (answers : List AnswerInput) : Int :=
  ((questions.filter (specCorrect answers)).map (fun q => q.points)).sum

/-- Spec: `score = round(100 * earnedPoints / totalPoints)` (round-half-up),
and `score = 0` when `totalPoints == 0`. -/
def specScore (questions : List QuizQuestion) (answers : List AnswerInput) : Int :=
  if specTotalPoints questions = 0 then 0
  else jsRound (100 * (specEarnedPoints questions answers : ℚ) / (specTotalPoints questions : ℚ))

/-! ### Lemmas about the scoring loop -/

lemma scorePoints_loop (answers : List AnswerInput) :
    ∀ (questions : List QuizQuestion) (t e : Int),
      questions.foldl
        (fun acc q =>
          (acc.1 + q.points, if codeCorrect answers q then acc.2 + q.points else acc.2))
        (t, e)
      = (t + specTotalPoints questions,
         e + ((questions.filter (codeCorrect answers)).map (fun q => q.points)).sum) := by
  intro questions
  induction questions with
  | nil => intro t e; simp [specTotalPoints]
  | cons q qs ih =>
    intro t e
    by_cases h : codeCorrect answers q
    · simp only [List.foldl_cons, h, if_true, ih, specTotalPoints, List.map_cons, List.sum_cons,
        List.filter_cons, if_pos h, Prod.mk.injEq]
      exact ⟨by ring, by ring⟩
    · simp [List.foldl_cons, h, ih, specTotalPoints, List.filter_cons, Prod.mk.injEq]
      ring

lemma scorePoints_eq (questions : List QuizQuestion) (answers : List AnswerInput) :
    scorePoints questions answers
      = (specTotalPoints questions,
         ((questions.filter (codeCorrect answers)).map (fun q => q.points)).sum) := by
  unfold scorePoints
  rw [scorePoints_loop]
  simp

/-- With no duplicate `questionId` among the submitted answers (in particular for
any complete answer set, one entry per question), the first-match check of the
code agrees with the spec's notion of a correctly answered question. -/
lemma codeCorrect_eq_specCorrect (q : QuizQuestion) :
    ∀ (answers : List AnswerInput),
      (answers.map (fun a => a.questionId)).Nodup →
      codeCorrect answers q = specCorrect answers q := by
  intro answers
  induction answers with
  | nil => intro _; rfl
  | cons a tl ih =>
    intro hnd
    simp only [List.map_cons, List.nodup_cons] at hnd
    obtain ⟨hnotin, hndtl⟩ := hnd
    by_cases hq : a.questionId == q.id
    · have htl : ∀ b ∈ tl, (b.questionId == q.id) = false := by
        intro b hb
        by_contra hcon
        have hb' : b.questionId = q.id := by
          have := eq_true_of_ne_false hcon
          exact beq_iff_eq.mp (by simpa using this)
        have ha' : a.questionId = q.id := beq_iff_eq.mp hq
        exact hnotin (by
          rw [ha', ← hb']
          exact List.mem_map_of_mem (fun x => x.questionId) hb)
      have htlany : tl.any
          (fun b => b.questionId == q.id && b.selectedOptionIndex == q.correctOptionIndex)
          = false := by
        rw [List.any_eq_false]
        intro b hb
        simp [htl b hb]
      unfold codeCorrect specCorrect
      simp only [List.find?_cons, hq, List.any_cons, htlany, Bool.or_false]
      by_cases hsel : a.selectedOptionIndex == q.correctOptionIndex <;> simp [hsel, hq]
    · unfold codeCorrect specCorrect
      simp only [List.find?_cons, List.any_cons]
      rw [Bool.not_eq_true] at hq
      simp only [hq, Bool.false_and, Bool.false_or]
      exact ih hndtl

lemma scorePoints_eq_spec (questions : List QuizQuestion) (answers : List AnswerInput)
    (hnd : (answers.map (fun a => a.questionId)).Nodup) :
    scorePoints questions answers
      = (specTotalPoints questions, specEarnedPoints questions answers) := by
  rw [scorePoints_eq]
  unfold specEarnedPoints
  have : questions.filter (codeCorrect answers) = questions.filter (specCorrect answers) :=
    List.filter_congr (fun q _ => codeCorrect_eq_specCorrect q answers hnd)
  rw [this]

lemma sum_filter_nonneg_le (p : QuizQuestion → Bool) :
    ∀ (l : List QuizQuestion), (∀ q ∈ l, 0 ≤ q.points) →
      ((l.filter p).map (fun q => q.points)).sum ≤ (l.map (fun q => q.points)).sum := by
  intro l
  induction l with
  | nil => intro _; simp
  | cons q qs ih =>
    intro hnn
    have hq : 0 ≤ q.points := hnn q (List.mem_cons_self q qs)
    have htl := ih (fun x hx => hnn x (List.mem_cons_of_mem q hx))
    by_cases hp : p q
    · simp only [List.filter_cons, if_pos hp, List.map_cons, List.sum_cons]
      exact add_le_add_left htl _
    · simp only [List.filter_cons, if_neg hp, List.map_cons, List.sum_cons]
      calc ((qs.filter p).map (fun q => q.points)).sum
          ≤ (qs.map (fun q => q.points)).sum := htl
        _ ≤ q.points + (qs.map (fun q => q.points)).sum := le_add_of_nonneg_left hq

lemma sum_filter_nonneg (p : QuizQuestion → Bool) :
    ∀ (l : List QuizQuestion), (∀ q ∈ l, 0 ≤ q.points) →
      0 ≤ ((l.filter p).map (fun q => q.points)).sum := by
  intro l
  induction l with
  | nil => intro _; simp
  | cons q qs ih =>
    intro hnn
    have hq : 0 ≤ q.points := hnn q (List.mem_cons_self q qs)
    have htl := ih (fun x hx => hnn x (List.mem_cons_of_mem q hx))
    by_cases hp : p q
    · simp only [List.filter_cons, if_pos hp, List.map_cons, List.sum_cons]
      positivity
    · simpa [List.filter_cons, if_neg hp] using htl

/-! ## Quiz attempt submission (`QuizService.submitQuizAttempt`)

The database write (`prisma.quizAttempt.create` with nested `answers.create`)
is modelled by explicit state passing on the list of stored attempts; each
`throw new ApiError(...)` becomes an `Except.error` returned together with the
untouched state. -/

structure AttemptAnswer where
  questionId : String
  selectedOptionIndex : Int
  isCorrect : Bool
  deriving DecidableEq, Repr

structure QuizAttempt where
  userId : String
  quizId : String
  score : Int
  passed : Bool
  answers : List AttemptAnswer
  deriving DecidableEq, Repr

inductive SubmitError
  | quizNotFound
  | notAllAnswered
  | invalidQuestionIds (ids : List String)
  deriving DecidableEq, Repr

/-- The `statusCode` of the `ApiError` thrown for each failure of `submitQuizAttempt`. -/
def SubmitError.statusCode : SubmitError → Int
  | .quizNotFound => 404
  | .notAllAnswered => 400
  | .invalidQuestionIds _ => 400

/-- The message of the `ApiError` thrown for each failure of `submitQuizAttempt`. -/
def SubmitError.message : SubmitError → String
  | .quizNotFound => "Quiz not found"
  | .notAllAnswered => "All questions must be answered"
  | .invalidQuestionIds ids => "Invalid question IDs: " ++ String.intercalate ", " ids

/-- `const questionIds = quiz.questions.map(q => q.id)`. -/
def quizQuestionIds (quiz : Quiz) : List String :=
  quiz.questions.map (fun q => q.id)

/-- `const invalidQuestionIds = answeredQuestionIds.filter(id => !questionIds.includes(id))`. -/
def invalidIds (quiz : Quiz) (answers : List AnswerInput) : List String :=
  (answers.map (fun a => a.questionId)).filter (fun i => !(quizQuestionIds quiz).contains i)

/-- One row of the nested `answers.create`: the question is looked up by
`quiz.questions.find(q => q.id === answer.questionId)` and
`isCorrect: question.correctOptionIndex === answer.selectedOptionIndex`.
(The `none` branch is unreachable after validation.) -/
def mkAttemptAnswer (quiz : Quiz) (a : AnswerInput) : AttemptAnswer :=
  { questionId := a.questionId
    selectedOptionIndex := a.selectedOptionIndex
    isCorrect :=
      match quiz.questions.find? (fun q => q.id == a.questionId) with
      | some q => q.correctOptionIndex == a.selectedOptionIndex
      | none => false }

/-- `QuizService.submitQuizAttempt`: lookup (`getQuizById`), the two
validation checks, score calculation, `passed = score >= quiz.passingScore`,
and the single attempt-creation write. -/
def submitQuizAttempt (quizLookup : Option Quiz) (userId : String)
    (answers : List AnswerInput) (st : List QuizAttempt) :
    Except SubmitError QuizAttempt × List QuizAttempt :=
  match quizLookup with
  | none => (.error .quizNotFound, st)
  | some quiz =>
    if (quizQuestionIds quiz).length ≠ (answers.map (fun a => a.questionId)).length then
      (.error .notAllAnswered, st)
    else if 0 < (invalidIds quiz answers).length then
      (.error (.invalidQuestionIds (invalidIds quiz answers)), st)
    else
      let score := calculateQuizScore quiz answers
      let passed := decide (quiz.passingScore ≤ score)
      let attempt : QuizAttempt :=
        { userId := userId
          quizId := quiz.id
          score := score
          passed := passed
          answers := answers.map (mkAttemptAnswer quiz) }
      (.ok attempt, st ++ [attempt])

/-! ## Module unlock evaluation (`ModuleService.getModulesToUnlock`) -/

inductive ModuleStatus
  | DRAFT
  | ACTIVE
  | ARCHIVED
  deriving DecidableEq, Repr

structure CourseModule where
  id : String
  durationInDays : Int
  order : Int
  status : ModuleStatus
  isDeleted : Bool
  deriving DecidableEq, Repr

structure Enrollment where
  userId : String
  courseId : String
  enrollmentDate : Int
  expiryDate : Int
  isActive : Bool
  deriving DecidableEq, Repr

structure UnlockEntry where
  courseModule : CourseModule
  unlockedAt : Int
  isUnlocked : Bool
  deriving DecidableEq, Repr

/-- Modelled from the spec: the per-enrollment loop body of
`ModuleService.getModulesToUnlock` is not present under `src/` (the source file
breaks off right after `for (const enrollment of enrollments)`). The module
filter is from the source query (modules with `isDeleted: false` and
`status: ModuleStatus.ACTIVE`, ordered by ascending `order`; the input list is
taken in that order). The per-module computation follows spec §4.1:
`unlockedAt = enrollment.enrollmentDate + module.durationInDays` (calendar
days, with dates as day numbers), `isUnlocked = now >= unlockedAt`, and every
module reports locked when `enrollment.isActive` is false or `expiryDate` has
passed (`now > expiryDate`). -/
def computeUnlockedModules (now : Int) (e : Enrollment) (mods : List CourseModule) :
    List UnlockEntry :=
  (mods.filter (fun m => !m.isDeleted && m.status == ModuleStatus.ACTIVE)).map (fun m =>
    { courseModule := m
      unlockedAt := e.enrollmentDate + m.durationInDays
      isUnlocked := e.isActive && decide (now ≤ e.expiryDate)
                      && decide (e.enrollmentDate + m.durationInDays ≤ now) })

/-! ## Enrollment rows and the unique constraint (Prisma `UserCourseEnrollment`)

The schema declares `@@unique([userId, moduleId])` on `UserCourseEnrollment`
(the enrollment's course reference is its `moduleId` column). The reachable
database states are modelled by the two mutating operations exposed for
enrollments: `POST /enrollments` (an insert, which the unique constraint makes
fail with `P2002` when a row with the same `(userId, moduleId)` exists) and
`PATCH /enrollments/:id/status` (an update of `isActive` / `expiryDate` only). -/

structure EnrollmentRow where
  id : String
  userId : String
  moduleId : String
  enrollmentDate : Int
  expiryDate : Int
  isActive : Bool
  deriving DecidableEq, Repr

/-- The column pair covered by `@@unique([userId, moduleId])`. -/
def enrollKey (r : EnrollmentRow) : String × String :=
  (r.userId, r.moduleId)

inductive EnrollOp : List EnrollmentRow → List EnrollmentRow → Prop
  | create (s : List EnrollmentRow) (r : EnrollmentRow)
      (hunique : ∀ r' ∈ s, enrollKey r' ≠ enrollKey r) :
      EnrollOp s (s ++ [r])
  | updateStatus (s : List EnrollmentRow) (eid : String) (active : Bool) (expiry : Int) :
      EnrollOp s (s.map (fun r =>
        if r.id = eid then { r with isActive := active, expiryDate := expiry } else r))

inductive EnrollReachable : List EnrollmentRow → Prop
  | init : EnrollReachable []
  | step {s s' : List EnrollmentRow} :
      EnrollReachable s → EnrollOp s s' → EnrollReachable s'

/-! ## Error middleware (`src/middlewares/error.middleware.ts`) -/

structure ErrorResponse where
  statusCode : Int
  message : String
  deriving DecidableEq, Repr

/-- Errors reaching `errorMiddleware`: `ApiError` instances (with their own
`statusCode`), `PrismaClientKnownRequestError` (dispatched on `err.code`), and
any other error (dispatched on `err.name`, with `err.message` used only in
development mode). -/
inductive AppError
  | api (message : String) (statusCode : Int)
  | prismaKnown (code : String) (message : String)
  | generic (name : String) (message : String)
  deriving DecidableEq, Repr

/-- The default branch of `errorMiddleware`: HTTP 500 with the error's own
message in development mode and a generic message otherwise. -/
def defaultErrorResponse (dev : Bool) (m : String) : ErrorResponse :=
  { statusCode := 500, message := if dev then m else "Internal server error" }

/-- `errorMiddleware`, as a function from the propagated error (plus the
development-mode flag) to the HTTP error response it sends. -/
def errorMiddleware (dev : Bool) : AppError → ErrorResponse
  | .api m c => { statusCode := c, message := m }
  | .prismaKnown code m =>
    if code = "P2002" then { statusCode := 409, message := "Duplicate value for a unique field" }
    else if code = "P2025" then { statusCode := 404, message := "Record not found" }
    else if code = "P2003" then { statusCode := 400, message := "Foreign key constraint failed" }
    else if code = "P2016" then { statusCode := 404, message := "Record not found or no permissions" }
    else defaultErrorResponse dev m
  | .generic nm m =>
    if nm = "ValidationError" then { statusCode := 400, message := "Validation error" }
    else if nm = "JsonWebTokenError" then { statusCode := 401, message := "Invalid token" }
    else if nm = "TokenExpiredError" then { statusCode := 401, message := "Token expired" }
    else defaultErrorResponse dev m

/-! ## Quiz question creation and update (`QuizService.createQuizQuestion`,
`QuizService.updateQuizQuestion`) -/

structure ApiError where
  message : String
  statusCode : Int
  deriving DecidableEq, Repr

structure CreateQuestionData where
  question : String
  options : List String
  correctOptionIndex : Int
  points : Int
  deriving DecidableEq, Repr

structure UpdateQuestionData where
  question : Option String
  options : Option (List String)
  correctOptionIndex : Option Int
  points : Option Int
  deriving DecidableEq, Repr

/-- `QuizService.createQuizQuestion`: 404 when the quiz lookup fails, 400 when
`data.correctOptionIndex < 0 || data.correctOptionIndex >= data.options.length`,
otherwise the created row (with the database-generated id). -/
def createQuizQuestion (quizExists : Bool) (newId : String) (d : CreateQuestionData) :
    Except ApiError QuizQuestion :=
  if quizExists = false then
    .error { message := "Quiz not found", statusCode := 404 }
  else if d.correctOptionIndex < 0 ∨ (d.options.length : Int) ≤ d.correctOptionIndex then
    .error { message := "Invalid correctOptionIndex, must be a valid index in the options array"
             statusCode := 400 }
  else
    .ok { id := newId
          question := d.question
          options := d.options
          correctOptionIndex := d.correctOptionIndex
          points := d.points }

/-- The `prisma.quizQuestion.update` result: provided fields replace the
stored ones, absent fields are kept. -/
def applyQuestionUpdate (q : QuizQuestion) (d : UpdateQuestionData) : QuizQuestion :=
  { id := q.id
    question := d.question.getD q.question
    options := d.options.getD q.options
    correctOptionIndex := d.correctOptionIndex.getD q.correctOptionIndex
    points := d.points.getD q.points }

/-- `QuizService.updateQuizQuestion`: 404 when the question lookup fails, then
the three validation branches on which of `options` / `correctOptionIndex` are
provided, then the update. -/
def updateQuizQuestion (existing : Option QuizQuestion) (d : UpdateQuestionData) :
    Except ApiError QuizQuestion :=
  match existing with
  | none => .error { message := "Question not found", statusCode := 404 }
  | some q =>
    match d.options, d.correctOptionIndex with
    | some opts, some idx =>
      if idx < 0 ∨ (opts.length : Int) ≤ idx then
        .error { message := "Invalid correctOptionIndex, must be a valid index in the options array"
                 statusCode := 400 }
      else .ok (applyQuestionUpdate q d)
    | some opts, none =>
      if (opts.length : Int) ≤ q.correctOptionIndex then
        .error { message := "Updating options would make existing correctOptionIndex invalid"
                 statusCode := 400 }
      else .ok (applyQuestionUpdate q d)
    | none, some idx =>
      if idx < 0 ∨ (q.options.length : Int) ≤ idx then
        .error { message := "Invalid correctOptionIndex for existing options", statusCode := 400 }
      else .ok (applyQuestionUpdate q d)
    | none, none => .ok (applyQuestionUpdate q d)

/-! ## Claim theorems -/

lemma specTotalPoints_nonneg (questions : List QuizQuestion)
    (hpts : ∀ q ∈ questions, 0 ≤ q.points) : 0 ≤ specTotalPoints questions := by
  unfold specTotalPoints
  apply List.sum_nonneg
  intro x hx
  obtain ⟨q, hq, rfl⟩ := List.mem_map.mp hx
  exact hpts q hq

/-- Claim C1: for every quiz and complete answer set (one entry per question,
hence no duplicate `questionId`s, and question points validated nonnegative at
the data-entry boundary), grading computes `earnedPoints` as the sum of points
of correctly answered questions, `totalPoints` as the sum of all question
points, and the score as round-half-up of `100 * earnedPoints / totalPoints`,
with score `0` (and no error) when `totalPoints = 0`. -/
theorem C1_grading_matches_spec (quiz : Quiz) (answers : List AnswerInput)
    (hnd : (answers.map (fun a => a.questionId)).Nodup)
    (hpts : ∀ q ∈ quiz.questions, 0 ≤ q.points) :
    scorePoints quiz.questions answers
      = (specTotalPoints quiz.questions, specEarnedPoints quiz.questions answers)
    ∧ calculateQuizScore quiz answers = specScore quiz.questions answers := by
  have hsp := scorePoints_eq_spec quiz.questions answers hnd
  refine ⟨hsp, ?_⟩
  unfold calculateQuizScore specScore
  rw [hsp]
  by_cases h0 : specTotalPoints quiz.questions = 0
  · simp [h0]
  · have hpos : 0 < specTotalPoints quiz.questions :=
      lt_of_le_of_ne (specTotalPoints_nonneg quiz.questions hpts) (Ne.symm h0)
    simp only [hpos, if_pos, if_neg h0]
    unfold jsRound
    congr 1
    ring

def w1Quiz : Quiz :=
  { id := "quiz1", passingScore := 50
    questions :=
      [ { id := "q1", question := "Q1", options := ["a", "b"], correctOptionIndex := 0, points := 5 }
      , { id := "q2", question := "Q2", options := ["a", "b"], correctOptionIndex := 1, points := 5 } ] }

def w1Answers : List AnswerInput :=
  [ { questionId := "q1", selectedOptionIndex := 0 }
  , { questionId := "q2", selectedOptionIndex := 0 } ]

theorem C1_grading_matches_spec_witness :
    ((w1Answers.map (fun a => a.questionId)).Nodup ∧ ∀ q ∈ w1Quiz.questions, 0 ≤ q.points)
    ∧ calculateQuizScore w1Quiz w1Answers = specScore w1Quiz.questions w1Answers :=
  ⟨⟨by decide, by decide⟩,
   (C1_grading_matches_spec w1Quiz w1Answers (by decide) (by decide)).2⟩

/-- Claim C6: for every quiz with positive total points (question points are
validated positive at the data-entry boundary), the computed score lies in
`[0, 100]`, and grading is deterministic: it is a pure function of the
`(quiz, answers)` pair, so equal inputs yield equal scores. -/
theorem C6_score_range_deterministic (quiz : Quiz) (answers : List AnswerInput)
    (hpts : ∀ q ∈ quiz.questions, 0 ≤ q.points)
    (htot : 0 < specTotalPoints quiz.questions) :
    (0 ≤ calculateQuizScore quiz answers ∧ calculateQuizScore quiz answers ≤ 100)
    ∧ (∀ (quiz' : Quiz) (answers' : List AnswerInput),
        quiz' = quiz → answers' = answers →
        calculateQuizScore quiz' answers' = calculateQuizScore quiz answers) := by
  constructor
  · unfold calculateQuizScore
    rw [scorePoints_eq]
    simp only [if_pos htot]
    set E := ((quiz.questions.filter (codeCorrect answers)).map (fun q => q.points)).sum
      with hEdef
    set T := specTotalPoints quiz.questions with hTdef
    have hE0 : 0 ≤ E := sum_filter_nonneg _ _ hpts
    have hET : E ≤ T := by
      rw [hEdef, hTdef]
      unfold specTotalPoints
      exact sum_filter_nonneg_le _ _ hpts
    have hTq : (0:ℚ) < (T:ℚ) := by exact_mod_cast htot
    have hEq : (0:ℚ) ≤ (E:ℚ) := by exact_mod_cast hE0
    have hETq : (E:ℚ) ≤ (T:ℚ) := by exact_mod_cast hET
    have hx0 : (0:ℚ) ≤ (E:ℚ) / (T:ℚ) * 100 := by positivity
    have hx1 : (E:ℚ) / (T:ℚ) * 100 ≤ 100 := by
      have hle : (E:ℚ) / (T:ℚ) ≤ 1 := by
        rw [div_le_one hTq]
        exact hETq
      nlinarith
    unfold jsRound
    constructor
    · refine Int.le_floor.mpr ?_
      rw [Int.cast_zero]
      linarith
    · have hlt : (E:ℚ) / (T:ℚ) * 100 + 1/2 < ((101 : ℤ) : ℚ) := by
        rw [show (((101 : ℤ) : ℚ)) = (101 : ℚ) by norm_num]
        linarith
      have hfl := Int.floor_lt.mpr hlt
      omega
  · intro quiz' answers' hq ha
    rw [hq, ha]

def w6Quiz : Quiz :=
  { id := "quiz6", passingScore := 50
    questions :=
      [ { id := "q1", question := "Q1", options := ["a", "b", "c"], correctOptionIndex := 2, points := 3 } ] }

def w6Answers : List AnswerInput :=
  [ { questionId := "q1", selectedOptionIndex := 1 } ]

theorem C6_score_range_deterministic_witness :
    ((∀ q ∈ w6Quiz.questions, 0 ≤ q.points) ∧ 0 < specTotalPoints w6Quiz.questions)
    ∧ (0 ≤ calculateQuizScore w6Quiz w6Answers ∧ calculateQuizScore w6Quiz w6Answers ≤ 100) :=
  ⟨⟨by decide, by decide⟩,
   (C6_score_range_deterministic w6Quiz w6Answers (by decide) (by decide)).1⟩

def c2Quiz : Quiz :=
  { id := "quiz2", passingScore := 50
    questions :=
      [ { id := "q1", question := "Q1", options := ["a", "b"], correctOptionIndex := 0, points := 5 }
      , { id := "q2", question := "Q2", options := ["a", "b"], correctOptionIndex := 1, points := 5 } ] }

def c2Answers : List AnswerInput :=
  [ { questionId := "q1", selectedOptionIndex := 0 }
  , { questionId := "q1", selectedOptionIndex := 0 } ]

/-- Claim C2 is false as stated: an answer list that duplicates one question's
answer and omits another question — so it does not contain exactly one entry
per question — passes both validation checks of `submitQuizAttempt` (the
counts match and every answered id exists in the quiz), and grading proceeds
with no validation error. -/
theorem C2_counterexample_duplicate_answers :
    ("q2" ∈ quizQuestionIds c2Quiz)
    ∧ ("q2" ∉ c2Answers.map (fun a => a.questionId))
    ∧ (submitQuizAttempt (some c2Quiz) "user1" c2Answers []).1.isOk = true :=
  ⟨by decide, by decide, by rfl⟩

/-- Claim C2 (amended): `submitQuizAttempt` rejects with a 400 error exactly
when the answer count differs from the question count (error message
"All questions must be answered", which does not name the missing question
IDs) or when the counts match and some answered `questionId` is not in the
quiz (error message naming the extraneous IDs); when the counts match and all
answered IDs belong to the quiz — even if duplicates mask an omitted
question — no validation error is raised and grading proceeds. -/
theorem C2_amended_submission_validation (quiz : Quiz) (userId : String)
    (answers : List AnswerInput) (st : List QuizAttempt) :
    (quiz.questions.length ≠ answers.length →
      (submitQuizAttempt (some quiz) userId answers st).1 = .error .notAllAnswered
      ∧ SubmitError.statusCode .notAllAnswered = 400
      ∧ SubmitError.message .notAllAnswered = "All questions must be answered")
    ∧ (quiz.questions.length = answers.length → invalidIds quiz answers ≠ [] →
      (submitQuizAttempt (some quiz) userId answers st).1
        = .error (.invalidQuestionIds (invalidIds quiz answers))
      ∧ SubmitError.statusCode (.invalidQuestionIds (invalidIds quiz answers)) = 400)
    ∧ (quiz.questions.length = answers.length → invalidIds quiz answers = [] →
      (submitQuizAttempt (some quiz) userId answers st).1.isOk = true) := by
  have hlen : (quizQuestionIds quiz).length = quiz.questions.length := by
    unfold quizQuestionIds
    exact List.length_map _ _
  refine ⟨?_, ?_, ?_⟩
  · intro hne
    have hcond : (quizQuestionIds quiz).length ≠ (answers.map (fun a => a.questionId)).length := by
      rw [hlen, List.length_map]
      exact hne
    unfold submitQuizAttempt
    dsimp only
    rw [if_pos hcond]
    exact ⟨rfl, rfl, rfl⟩
  · intro heq hinv
    have hcond : ¬ (quizQuestionIds quiz).length ≠ (answers.map (fun a => a.questionId)).length := by
      rw [hlen, List.length_map]
      exact fun h => h heq
    have hpos : 0 < (invalidIds quiz answers).length := List.length_pos.mpr hinv
    unfold submitQuizAttempt
    dsimp only
    rw [if_neg hcond, if_pos hpos]
    exact ⟨rfl, rfl⟩
  · intro heq hinv
    have hcond : ¬ (quizQuestionIds quiz).length ≠ (answers.map (fun a => a.questionId)).length := by
      rw [hlen, List.length_map]
      exact fun h => h heq
    have hnpos : ¬ 0 < (invalidIds quiz answers).length := by
      rw [hinv]
      simp
    unfold submitQuizAttempt
    dsimp only
    rw [if_neg hcond, if_neg hnpos]
    rfl

def c2wAnswers : List AnswerInput :=
  [ { questionId := "q1", selectedOptionIndex := 0 } ]

theorem C2_amended_submission_validation_witness :
    (c2Quiz.questions.length ≠ c2wAnswers.length)
    ∧ (submitQuizAttempt (some c2Quiz) "user1" c2wAnswers []).1 = .error .notAllAnswered :=
  ⟨by decide,
   ((C2_amended_submission_validation c2Quiz "user1" c2wAnswers []).1 (by decide)).1⟩

/-- Claim C3: for every graded attempt produced by `submitQuizAttempt`,
`passed` is true exactly when the score reaches `quiz.passingScore`
(inclusive threshold). -/
theorem C3_passed_iff_passingScore_le (quiz : Quiz) (userId : String)
    (answers : List AnswerInput) (st : List QuizAttempt) (att : QuizAttempt)
    (h : (submitQuizAttempt (some quiz) userId answers st).1 = .ok att) :
    att.passed = true ↔ quiz.passingScore ≤ att.score := by
  unfold submitQuizAttempt at h
  dsimp only at h
  by_cases h1 : (quizQuestionIds quiz).length ≠ (answers.map (fun a => a.questionId)).length
  · rw [if_pos h1] at h
    exact absurd h (by simp)
  · rw [if_neg h1] at h
    by_cases h2 : 0 < (invalidIds quiz answers).length
    · rw [if_pos h2] at h
      exact absurd h (by simp)
    · rw [if_neg h2] at h
      dsimp only at h
      have h' := Except.ok.inj h
      rw [← h']
      simp [decide_eq_true_iff]

def w3Quiz : Quiz :=
  { id := "quiz3", passingScore := 50
    questions :=
      [ { id := "q1", question := "Q1", options := ["a", "b"], correctOptionIndex := 0, points := 5 }
      , { id := "q2", question := "Q2", options := ["a", "b"], correctOptionIndex := 1, points := 5 } ] }

def w3Answers : List AnswerInput :=
  [ { questionId := "q1", selectedOptionIndex := 0 }
  , { questionId := "q2", selectedOptionIndex := 0 } ]

def w3Attempt : QuizAttempt :=
  { userId := "user1", quizId := "quiz3", score := 50, passed := true
    answers :=
      [ { questionId := "q1", selectedOptionIndex := 0, isCorrect := true }
      , { questionId := "q2", selectedOptionIndex := 0, isCorrect := false } ] }

lemma w3_score : calculateQuizScore w3Quiz w3Answers = 50 := by
  have h : scorePoints w3Quiz.questions w3Answers = (10, 5) := by decide
  unfold calculateQuizScore
  rw [h]
  norm_num [jsRound]

lemma w3_submit :
    (submitQuizAttempt (some w3Quiz) "user1" w3Answers []).1 = .ok w3Attempt := by
  unfold submitQuizAttempt
  dsimp only
  rw [if_neg (by decide), if_neg (by decide)]
  dsimp only
  rw [w3_score]
  rfl

/-- Witness for C3: the spec scenario — a quiz with two questions worth 5 and
5 points and `passingScore = 50`, answered with exactly the first question
correct, yields score 50 and `passed = true` (inclusive boundary). -/
theorem C3_passed_iff_passingScore_le_witness :
    ((submitQuizAttempt (some w3Quiz) "user1" w3Answers []).1 = .ok w3Attempt)
    ∧ w3Attempt.score = 50 ∧ w3Attempt.passed = true
    ∧ (w3Attempt.passed = true ↔ w3Quiz.passingScore ≤ w3Attempt.score) :=
  ⟨w3_submit, rfl, rfl,
   C3_passed_iff_passingScore_le w3Quiz "user1" w3Answers [] w3Attempt w3_submit⟩

/-- Claim C7: whenever `submitQuizAttempt` fails with a validation-class error
(quiz not found, not all questions answered, or invalid question IDs), the
persistent state is unchanged — no attempt record (with its per-question
answer rows) is created. -/
theorem C7_error_leaves_state_unchanged (quizLookup : Option Quiz) (userId : String)
    (answers : List AnswerInput) (st : List QuizAttempt) (e : SubmitError)
    (h : (submitQuizAttempt quizLookup userId answers st).1 = .error e) :
    (submitQuizAttempt quizLookup userId answers st).2 = st := by
  cases quizLookup with
  | none => rfl
  | some quiz =>
    unfold submitQuizAttempt at h ⊢
    dsimp only at h ⊢
    by_cases h1 : (quizQuestionIds quiz).length ≠ (answers.map (fun a => a.questionId)).length
    · rw [if_pos h1]
    · rw [if_neg h1] at h ⊢
      by_cases h2 : 0 < (invalidIds quiz answers).length
      · rw [if_pos h2]
      · rw [if_neg h2] at h
        exact absurd h (by simp)

def w7Attempt : QuizAttempt :=
  { userId := "u0", quizId := "q0", score := 0, passed := false, answers := [] }

theorem C7_error_leaves_state_unchanged_witness :
    ((submitQuizAttempt none "user1" [] [w7Attempt]).1 = .error .quizNotFound)
    ∧ (submitQuizAttempt none "user1" [] [w7Attempt]).2 = [w7Attempt] :=
  ⟨rfl, C7_error_leaves_state_unchanged none "user1" [] [w7Attempt] .quizNotFound rfl⟩

/-- Claim C4: for an active, non-expired enrollment, every evaluated
(`ACTIVE`, non-deleted) module is reported unlocked exactly when
`now >= enrollmentDate + durationInDays`, with
`unlockedAt = enrollmentDate + durationInDays`; modules that are not `ACTIVE`
(for example `DRAFT`) or are deleted never appear unlocked regardless of date. -/
theorem C4_unlock_rule (now : Int) (e : Enrollment) (mods : List CourseModule) :
    (e.isActive = true → now ≤ e.expiryDate →
      ∀ ent ∈ computeUnlockedModules now e mods,
        (ent.isUnlocked = true ↔ e.enrollmentDate + ent.courseModule.durationInDays ≤ now)
        ∧ ent.unlockedAt = e.enrollmentDate + ent.courseModule.durationInDays)
    ∧ (e.isActive = true → now ≤ e.expiryDate →
      ∀ m ∈ mods, m.isDeleted = false → m.status = ModuleStatus.ACTIVE →
        UnlockEntry.mk m (e.enrollmentDate + m.durationInDays)
            (decide (e.enrollmentDate + m.durationInDays ≤ now))
          ∈ computeUnlockedModules now e mods)
    ∧ (∀ ent ∈ computeUnlockedModules now e mods,
        ent.courseModule.status = ModuleStatus.ACTIVE ∧ ent.courseModule.isDeleted = false) := by
  refine ⟨?_, ?_, ?_⟩
  · intro hact hexp ent hent
    unfold computeUnlockedModules at hent
    obtain ⟨m, _, rfl⟩ := List.mem_map.mp hent
    have h1 : decide (now ≤ e.expiryDate) = true := decide_eq_true hexp
    refine ⟨?_, rfl⟩
    simp [hact, h1, decide_eq_true_eq]
  · intro hact hexp m hm hdel hstat
    have h1 : decide (now ≤ e.expiryDate) = true := decide_eq_true hexp
    unfold computeUnlockedModules
    refine List.mem_map.mpr ⟨m, List.mem_filter.mpr ⟨hm, by simp [hdel, hstat]⟩, ?_⟩
    simp [hact, h1]
  · intro ent hent
    unfold computeUnlockedModules at hent
    obtain ⟨m, hm, rfl⟩ := List.mem_map.mp hent
    have hcond := (List.mem_filter.mp hm).2
    simp only [Bool.and_eq_true, Bool.not_eq_true', beq_iff_eq] at hcond
    exact ⟨hcond.2, hcond.1⟩

def w4Enrollment : Enrollment :=
  { userId := "u1", courseId := "c1", enrollmentDate := 0, expiryDate := 100, isActive := true }

def w4Module : CourseModule :=
  { id := "m1", durationInDays := 7, order := 0, status := ModuleStatus.ACTIVE, isDeleted := false }

/-- Witness for C4: the spec scenario — enrollment started on day 0, module
with `durationInDays = 7`; at day 6 the module is locked, at day 7 it is
unlocked. -/
theorem C4_unlock_rule_witness :
    (w4Enrollment.isActive = true ∧ (7:Int) ≤ w4Enrollment.expiryDate)
    ∧ computeUnlockedModules 6 w4Enrollment [w4Module] = [UnlockEntry.mk w4Module 7 false]
    ∧ computeUnlockedModules 7 w4Enrollment [w4Module] = [UnlockEntry.mk w4Module 7 true]
    ∧ ((UnlockEntry.mk w4Module 7 true).isUnlocked = true
        ↔ w4Enrollment.enrollmentDate + w4Module.durationInDays ≤ 7) :=
  ⟨⟨by decide, by decide⟩, by decide, by decide,
   (((C4_unlock_rule 7 w4Enrollment [w4Module]).1 (by decide) (by decide)
       (UnlockEntry.mk w4Module 7 true) (by decide))).1⟩

/-- Claim C5: for an enrollment that is inactive or whose `expiryDate` has
passed (`now > expiryDate`), the unlock evaluation reports every module of the
course locked, regardless of each module's unlock date. -/
theorem C5_inactive_or_expired_locked (now : Int) (e : Enrollment) (mods : List CourseModule)
    (h : e.isActive = false ∨ e.expiryDate < now) :
    ∀ ent ∈ computeUnlockedModules now e mods, ent.isUnlocked = false := by
  intro ent hent
  unfold computeUnlockedModules at hent
  obtain ⟨m, _, rfl⟩ := List.mem_map.mp hent
  rcases h with h | h
  · simp [h]
  · have h1 : decide (now ≤ e.expiryDate) = false := decide_eq_false (not_le.mpr h)
    simp [h1]

def w5Enrollment : Enrollment :=
  { userId := "u1", courseId := "c1", enrollmentDate := 0, expiryDate := 5, isActive := true }

def w5Module : CourseModule :=
  { id := "m1", durationInDays := 3, order := 0, status := ModuleStatus.ACTIVE, isDeleted := false }

theorem C5_inactive_or_expired_locked_witness :
    (w5Enrollment.isActive = false ∨ w5Enrollment.expiryDate < (10:Int))
    ∧ (computeUnlockedModules 10 w5Enrollment [w5Module]).all (fun ent => !ent.isUnlocked) = true := by
  refine ⟨Or.inr (by decide), ?_⟩
  rw [List.all_eq_true]
  intro ent hent
  have hlock := C5_inactive_or_expired_locked 10 w5Enrollment [w5Module]
    (Or.inr (by decide)) ent hent
  simp [hlock]

lemma enrollKey_update (eid : String) (active : Bool) (expiry : Int) (r : EnrollmentRow) :
    enrollKey (if r.id = eid then { r with isActive := active, expiryDate := expiry } else r)
      = enrollKey r := by
  split <;> rfl

lemma enrollOp_preserves_nodup {s s' : List EnrollmentRow} (hop : EnrollOp s s')
    (h : (s.map enrollKey).Nodup) : (s'.map enrollKey).Nodup := by
  cases hop with
  | create r hunique =>
    rw [List.map_append, List.nodup_append]
    refine ⟨h, by simp, ?_⟩
    intro a ha hb
    obtain ⟨r', hr', rfl⟩ := List.mem_map.mp ha
    simp only [List.map_cons, List.map_nil, List.mem_singleton] at hb
    exact hunique r' hr' hb
  | updateStatus eid active expiry =>
    rw [List.map_map]
    have hfun : s.map (enrollKey ∘ fun r =>
        if r.id = eid then { r with isActive := active, expiryDate := expiry } else r)
        = s.map enrollKey :=
      List.map_congr_left (fun r _ => enrollKey_update eid active expiry r)
    rw [hfun]
    exact h

lemma reachable_enrollKey_nodup {s : List EnrollmentRow} (h : EnrollReachable s) :
    (s.map enrollKey).Nodup := by
  induction h with
  | init => simp
  | step _ hop ih => exact enrollOp_preserves_nodup hop ih

/-- Claim C8: in every reachable database state, no two distinct enrollment
rows with `isActive = true` share the same `(userId, moduleId)` pair — the
column pair the schema's `@@unique([userId, moduleId])` covers, i.e. the
enrollment's user and its enrolled course/module. (The constraint in fact
gives this for all rows, active or not.) -/
theorem C8_at_most_one_active_per_pair (s : List EnrollmentRow) (h : EnrollReachable s) :
    ((s.filter (fun r => r.isActive)).map enrollKey).Nodup :=
  List.Nodup.sublist (List.Sublist.map enrollKey (List.filter_sublist s))
    (reachable_enrollKey_nodup h)

def w8Row1 : EnrollmentRow :=
  { id := "e1", userId := "u1", moduleId := "m1", enrollmentDate := 0, expiryDate := 100
    isActive := true }

def w8Row2 : EnrollmentRow :=
  { id := "e2", userId := "u1", moduleId := "m2", enrollmentDate := 0, expiryDate := 100
    isActive := true }

theorem C8_at_most_one_active_per_pair_witness :
    EnrollReachable [w8Row1, w8Row2]
    ∧ (([w8Row1, w8Row2].filter (fun r => r.isActive)).map enrollKey).Nodup := by
  have h1 : EnrollOp [] ([] ++ [w8Row1]) := EnrollOp.create [] w8Row1 (by simp)
  have h2 : EnrollOp [w8Row1] ([w8Row1] ++ [w8Row2]) := by
    refine EnrollOp.create [w8Row1] w8Row2 ?_
    intro r' hr'
    simp only [List.mem_singleton] at hr'
    subst hr'
    decide
  have hreach : EnrollReachable [w8Row1, w8Row2] := by
    have := EnrollReachable.step (EnrollReachable.step EnrollReachable.init h1) h2
    simpa using this
  exact ⟨hreach, C8_at_most_one_active_per_pair _ hreach⟩

/-- Claim C9: the error middleware maps the error taxonomy to HTTP statuses:
`ApiError`s pass through their own status code (validation 400,
authentication 401, authorization 403, not-found 404, conflict 409), Prisma
unique-constraint violations (`P2002`) map to 409, zod/`ValidationError`-named
errors to 400, token errors to 401, and any unexpected error to 500 with only
a generic message outside development mode. -/
theorem C9_error_status_taxonomy (dev : Bool) (m : String) :
    (∀ c : Int, errorMiddleware dev (.api m c) = { statusCode := c, message := m })
    ∧ errorMiddleware dev (.prismaKnown "P2002" m)
        = { statusCode := 409, message := "Duplicate value for a unique field" }
    ∧ errorMiddleware dev (.generic "ValidationError" m)
        = { statusCode := 400, message := "Validation error" }
    ∧ errorMiddleware dev (.generic "JsonWebTokenError" m)
        = { statusCode := 401, message := "Invalid token" }
    ∧ errorMiddleware dev (.generic "TokenExpiredError" m)
        = { statusCode := 401, message := "Token expired" }
    ∧ (∀ nm : String, nm ≠ "ValidationError" → nm ≠ "JsonWebTokenError" →
        nm ≠ "TokenExpiredError" →
        errorMiddleware false (.generic nm m)
          = { statusCode := 500, message := "Internal server error" }) := by
  refine ⟨fun c => rfl, by rfl, by rfl, ?_, ?_, ?_⟩
  · unfold errorMiddleware
    dsimp only
    rw [if_neg (by decide), if_pos rfl]
  · unfold errorMiddleware
    dsimp only
    rw [if_neg (by decide), if_neg (by decide), if_pos rfl]
  · intro nm hn1 hn2 hn3
    unfold errorMiddleware
    dsimp only
    rw [if_neg hn1, if_neg hn2, if_neg hn3]
    rfl

theorem C9_error_status_taxonomy_witness :
    errorMiddleware false (.api "boom" 403) = { statusCode := 403, message := "boom" }
    ∧ ("RangeError" ≠ "ValidationError" ∧ "RangeError" ≠ "JsonWebTokenError"
        ∧ "RangeError" ≠ "TokenExpiredError")
    ∧ errorMiddleware false (.generic "RangeError" "boom")
        = { statusCode := 500, message := "Internal server error" } :=
  ⟨(C9_error_status_taxonomy false "boom").1 403,
   ⟨by decide, by decide, by decide⟩,
   (C9_error_status_taxonomy false "boom").2.2.2.2.2 "RangeError"
     (by decide) (by decide) (by decide)⟩

/-- Claim C10: every quiz question accepted by `createQuizQuestion` satisfies
`0 <= correctOptionIndex < options.length`; an out-of-bounds create is
rejected with a 400 error; `updateQuizQuestion` preserves the bound on every
accepted update of a question that satisfies it (and every rejection of an
existing question is a 400 error), so the bound holds for every stored
question. -/
theorem C10_correctOptionIndex_in_bounds (quizExists : Bool) (newId : String)
    (d : CreateQuestionData) (q0 : QuizQuestion) (u : UpdateQuestionData) :
    (∀ q, createQuizQuestion quizExists newId d = .ok q →
      0 ≤ q.correctOptionIndex ∧ q.correctOptionIndex < (q.options.length : Int))
    ∧ (quizExists = true →
       (d.correctOptionIndex < 0 ∨ (d.options.length : Int) ≤ d.correctOptionIndex) →
       createQuizQuestion quizExists newId d
         = .error { message := "Invalid correctOptionIndex, must be a valid index in the options array"
                    statusCode := 400 })
    ∧ (0 ≤ q0.correctOptionIndex → q0.correctOptionIndex < (q0.options.length : Int) →
       ∀ q, updateQuizQuestion (some q0) u = .ok q →
         0 ≤ q.correctOptionIndex ∧ q.correctOptionIndex < (q.options.length : Int))
    ∧ (∀ err, updateQuizQuestion (some q0) u = .error err → err.statusCode = 400) := by
  refine ⟨?_, ?_, ?_, ?_⟩
  · intro q h
    unfold createQuizQuestion at h
    by_cases hq : quizExists = false
    · rw [if_pos hq] at h
      exact absurd h (by simp)
    · rw [if_neg hq] at h
      by_cases hidx : d.correctOptionIndex < 0 ∨ (d.options.length : Int) ≤ d.correctOptionIndex
      · rw [if_pos hidx] at h
        exact absurd h (by simp)
      · rw [if_neg hidx] at h
        push_neg at hidx
        rw [← Except.ok.inj h]
        exact ⟨hidx.1, hidx.2⟩
  · intro hex hbad
    unfold createQuizQuestion
    rw [if_neg (by rw [hex]; simp), if_pos hbad]
  · intro h0 h1 q h
    unfold updateQuizQuestion at h
    dsimp only at h
    rcases huo : u.options with _ | opts <;> rcases hui : u.correctOptionIndex with _ | idx <;>
      rw [huo, hui] at h <;> dsimp only at h
    · rw [← Except.ok.inj h]
      unfold applyQuestionUpdate
      rw [huo, hui]
      simp only [Option.getD_some, Option.getD_none]
      exact ⟨h0, h1⟩
    · by_cases hc : idx < 0 ∨ (q0.options.length : Int) ≤ idx
      · rw [if_pos hc] at h
        exact absurd h (by simp)
      · rw [if_neg hc] at h
        push_neg at hc
        rw [← Except.ok.inj h]
        unfold applyQuestionUpdate
        rw [huo, hui]
        simp only [Option.getD_some, Option.getD_none]
        exact ⟨hc.1, hc.2⟩
    · by_cases hc : (opts.length : Int) ≤ q0.correctOptionIndex
      · rw [if_pos hc] at h
        exact absurd h (by simp)
      · rw [if_neg hc] at h
        rw [← Except.ok.inj h]
        unfold applyQuestionUpdate
        rw [huo, hui]
        simp only [Option.getD_some, Option.getD_none]
        exact ⟨h0, not_le.mp hc⟩
    · by_cases hc : idx < 0 ∨ (opts.length : Int) ≤ idx
      · rw [if_pos hc] at h
        exact absurd h (by simp)
      · rw [if_neg hc] at h
        push_neg at hc
        rw [← Except.ok.inj h]
        unfold applyQuestionUpdate
        rw [huo, hui]
        simp only [Option.getD_some, Option.getD_none]
        exact ⟨hc.1, hc.2⟩
  · intro err h
    unfold updateQuizQuestion at h
    dsimp only at h
    rcases huo : u.options with _ | opts <;> rcases hui : u.correctOptionIndex with _ | idx <;>
      rw [huo, hui] at h <;> dsimp only at h
    · exact absurd h (by simp)
    · by_cases hc : idx < 0 ∨ (q0.options.length : Int) ≤ idx
      · rw [if_pos hc] at h
        rw [← Except.error.inj h]
      · rw [if_neg hc] at h
        exact absurd h (by simp)
    · by_cases hc : (opts.length : Int) ≤ q0.correctOptionIndex
      · rw [if_pos hc] at h
        rw [← Except.error.inj h]
      · rw [if_neg hc] at h
        exact absurd h (by simp)
    · by_cases hc : idx < 0 ∨ (opts.length : Int) ≤ idx
      · rw [if_pos hc] at h
        rw [← Except.error.inj h]
      · rw [if_neg hc] at h
        exact absurd h (by simp)

def w10Create : CreateQuestionData :=
  { question := "Q", options := ["a", "b"], correctOptionIndex := 1, points := 2 }

def w10Existing : QuizQuestion :=
  { id := "qid", question := "Q", options := ["a", "b", "c"], correctOptionIndex := 2, points := 1 }

def w10Update : UpdateQuestionData :=
  { question := none, options := some ["x", "y", "z", "w"], correctOptionIndex := none
    points := none }

theorem C10_correctOptionIndex_in_bounds_witness :
    (0 ≤ w10Existing.correctOptionIndex
      ∧ w10Existing.correctOptionIndex < (w10Existing.options.length : Int))
    ∧ updateQuizQuestion (some w10Existing) w10Update
        = .ok (applyQuestionUpdate w10Existing w10Update)
    ∧ (0 ≤ (applyQuestionUpdate w10Existing w10Update).correctOptionIndex
        ∧ (applyQuestionUpdate w10Existing w10Update).correctOptionIndex
            < ((applyQuestionUpdate w10Existing w10Update).options.length : Int)) :=
  ⟨⟨by decide, by decide⟩, rfl,
   (C10_correctOptionIndex_in_bounds true "qn" w10Create w10Existing w10Update).2.2.1
     (by decide) (by decide) (applyQuestionUpdate w10Existing w10Update) rfl⟩

end SoloBackend
